import Mathlib

/-!
Shallow embedding of the simplefire repository core
(`simplefire/core.py` and `simplefire/utils.py`).

Pandas/NumPy floating-point cells that may hold NaN (null) are modelled as
`Option ℚ`, with `none` playing the role of NaN.  Arithmetic on such cells
propagates `none`, and every comparison with `none` is false, exactly as
NaN behaves under IEEE comparisons in Python.  Money amounts supplied by
callers are plain rationals.
-/

namespace Simplefire

/-- NaN-propagating addition on optional rationals (Python float + with NaN). -/
def nadd : Option ℚ → Option ℚ → Option ℚ
  | some a, some b => some (a + b)
  | _, _ => none

/-- NaN-propagating subtraction on optional rationals. -/
def nsub : Option ℚ → Option ℚ → Option ℚ
  | some a, some b => some (a - b)
  | _, _ => none

/-- NaN-propagating multiplication on optional rationals. -/
def nmul : Option ℚ → Option ℚ → Option ℚ
  | some a, some b => some (a * b)
  | _, _ => none

/-- Less-than on optional rationals: any comparison with NaN is false,
as in Python. -/
def nlt : Option ℚ → Option ℚ → Bool
  | some a, some b => decide (a < b)
  | _, _ => false

/-- Greater-than on optional rationals: any comparison with NaN is false,
as in Python.  In particular `ngt x none = false`, which mirrors
`new_contrib > float("nan")` in `Investment.contribute`. -/
def ngt : Option ℚ → Option ℚ → Bool
  | some a, some b => decide (b < a)
  | _, _ => false

/-- The withdrawal strategies of `Investment.withdraw`. -/
inductive Strategy
  | basis
  | gains
  | balanced
deriving Repr, DecidableEq

/-- The tax category recorded on a `Withdrawal`. -/
inductive TaxType
  | income
  | capital_gains
deriving Repr, DecidableEq

/-- Errors raised by the source.  `balanceUndetermined` and
`insufficientBalance` are both `BalanceError` in `exceptions.py`; they are
distinguished here by their raise site and message, as the spec does.
`notImplemented` is the `NotImplementedError` raised by the `balanced`
strategy, and `noOpenYear` models the pandas `KeyError` that a `NaN`
`current_year` lookup would produce when every year is already closed. -/
inductive Err
  | contributionLimitsExceeded
  | balanceUndetermined
  | insufficientBalance
  | notImplemented
  | noOpenYear
deriving Repr, DecidableEq

/-- One row of the `Investment.df` ledger: the five columns
`("basis", "start_balance", "end_balance", "contribution", "gains")`.
A `none` cell is a pandas null (NaN). -/
structure Row where
  basis : Option ℚ
  start_balance : Option ℚ
  end_balance : Option ℚ
  contribution : Option ℚ
  gains : Option ℚ
deriving Repr, DecidableEq

/-- The `Investment` object: the year-indexed ledger (rows are ordered by
ascending consecutive year, so list position stands for the year label),
the growth rate, the class-level tax-treatment flags, and the
contribution limit (`none` is the `np.NaN` default). -/
structure Account where
  rows : List Row
  growth_rate : ℚ
  pretax : Bool
  captial_gains : Bool
  taxfree : Bool
  convertible : Bool
  contribution_limit : Option ℚ
deriving Repr, DecidableEq

/-- `Investment.__init__`: a fresh ledger over `nyears` years, with
`contribution` and `basis` columns zeroed everywhere, `start_balance` and
`basis` of the first year set from the arguments, and
`growth_rate = annual_growth / 100`. -/
def mk_investment (nyears : ℕ) (starting_balance starting_basis annual_growth : ℚ)
    (pretax captial_gains taxfree convertible : Bool)
    (contribution_limit : Option ℚ) : Account :=
  let blank : Row :=
    { basis := some 0, start_balance := none, end_balance := none
      contribution := some 0, gains := none }
  let first : Row :=
    { blank with start_balance := some starting_balance, basis := some starting_basis }
  { rows :=
      match nyears with
      | 0 => []
      | n + 1 => first :: List.replicate n blank
    growth_rate := annual_growth / 100
    pretax := pretax
    captial_gains := captial_gains
    taxfree := taxfree
    convertible := convertible
    contribution_limit := contribution_limit }

/-- `Investment.current_year`: the first (minimum) year whose
`end_balance` is still null, as a row index. -/
def current_idx (a : Account) : Option ℕ :=
  a.rows.findIdx? fun r => r.end_balance.isNone

/-- A `Withdrawal` value object.  `tax` is optional because the source
computes it from NaN-able cells. -/
structure Withdrawal where
  amount : ℚ
  tax : Option ℚ
  tax_type : TaxType
deriving Repr, DecidableEq

/-- `Investment.contribute(amount, employee)`.  Returns the account after
the call together with the outcome; on an error the returned account is
the receiver unchanged, because in the source every `raise` happens
before any mutation of `self.df`. -/
def contribute (a : Account) (amount : ℚ) (employee : Bool) :
    Account × Except Err Unit :=
  match current_idx a with
  | none => (a, .error .noOpenYear)
  | some i =>
    match a.rows[i]? with
    | none => (a, .error .noOpenYear)
    | some row =>
      let new_contrib := nadd row.contribution (some amount)
      if employee && ngt new_contrib a.contribution_limit then
        (a, .error .contributionLimitsExceeded)
      else
        let row1 := { row with contribution := new_contrib }
        let row2 :=
          if employee then { row1 with basis := nadd row1.basis (some amount) } else row1
        ({ a with rows := a.rows.set i row2 }, .ok ())

/-- `Investment.close_year(year)` at an explicit row index `i`. -/
def close_year_at (a : Account) (i : ℕ) : Account × Except Err Unit :=
  match a.rows[i]? with
  | none => (a, .error .noOpenYear)
  | some row =>
    match row.start_balance with
    | none => (a, .error .balanceUndetermined)
    | some start_balance =>
      let contributions := row.contribution
      let balance_gain := some (start_balance * a.growth_rate)
      let contribution_gain := (nmul contributions (some a.growth_rate)).map (· / 2)
      let gains := nadd contribution_gain balance_gain
      let ending_balance := nadd (nadd (some start_balance) gains) contributions
      let row1 := { row with end_balance := ending_balance, gains := gains }
      let rows1 := a.rows.set i row1
      let rows2 :=
        match rows1[i + 1]? with
        | none => rows1
        | some nrow =>
          rows1.set (i + 1) { nrow with start_balance := ending_balance, basis := row.basis }
      ({ a with rows := rows2 }, .ok ())

/-- `Investment.close_year()` with the default (current) year. -/
def close_year (a : Account) : Account × Except Err Unit :=
  match current_idx a with
  | none => (a, .error .noOpenYear)
  | some i => close_year_at a i

/-- `Investment._calc_new_basis(amount, strategy)` on the current row.
Note the faithful rendering of line 400 of `core.py`: the local variable
`contribution` is loaded from the `"basis"` column, not the
`"contribution"` column. -/
def calc_new_basis (amount : ℚ) (strategy : Strategy) (row : Row) :
    Except Err (Option ℚ × Option ℚ) :=
  let start_balance := row.start_balance
  let basis := row.basis
  let contribution := row.basis
  match strategy with
  | .balanced => .error .notImplemented
  | .basis =>
    let new := nsub basis (some amount)
    if nlt new (some 0) then .ok (some 0, new.map (fun v => |v|))
    else .ok (new, some 0)
  | .gains =>
    let gains := nsub (nadd start_balance contribution) basis
    if ngt gains (some amount) then .ok (basis, some amount)
    else .ok (nsub basis (nsub (some amount) gains), gains)

/-- `Investment.withdraw(amount, strategy)`.  As with `contribute`, every
`raise` in the source precedes every mutation, so the account returned
with an error is the receiver unchanged. -/
def withdraw (a : Account) (amount : ℚ) (strategy : Strategy) :
    Account × Except Err Withdrawal :=
  match current_idx a with
  | none => (a, .error .noOpenYear)
  | some i =>
    match a.rows[i]? with
    | none => (a, .error .noOpenYear)
    | some row =>
      let contrib := row.contribution
      let balance := row.start_balance
      let funds := nadd contrib balance
      if nlt (nsub funds (some amount)) (some 0) then
        (a, .error .insufficientBalance)
      else
        match calc_new_basis amount strategy row with
        | .error e => (a, .error e)
        | .ok (new_basis, tax0) =>
          let row1 := { row with contribution := nsub row.contribution (some amount) }
          let tax := if a.taxfree then some 0 else if a.pretax then some amount else tax0
          let tax_type : TaxType := if a.captial_gains then .capital_gains else .income
          let row2 := { row1 with basis := new_basis }
          ({ a with rows := a.rows.set i row2 }, .ok ⟨amount, tax, tax_type⟩)

/-- The four `Investment` subclasses only set class attributes; the
base-class defaults are `pretax = captial_gains = taxfree = convertible =
False` and `contribution_limit = NaN`.  `Taxable` assigns
`capital_gains = True`, a fresh attribute distinct from the (misspelled)
`captial_gains` the methods read, so the flags the methods see are all
false. -/
def mk_taxable (nyears : ℕ) : Account :=
  mk_investment nyears 0 0 (9 / 2) false false false false none

/-- `Traditional401k(years)` with default arguments: `pretax = True`. -/
def mk_traditional_401k (nyears : ℕ) : Account :=
  mk_investment nyears 0 0 (9 / 2) true false false false none

/-- `TraditionalIRA(years)` with default arguments: `pretax = True`. -/
def mk_traditional_ira (nyears : ℕ) : Account :=
  mk_investment nyears 0 0 (9 / 2) true false false false none

/-- `RothIRA(years)` with default arguments: `taxfree = True`. -/
def mk_roth_ira (nyears : ℕ) : Account :=
  mk_investment nyears 0 0 (9 / 2) false false true false none

/-! ## Tax table engine (`simplefire/utils.py`)

`tax_to_income` and `income_to_tax` loop over the years of the input
series and run the same per-year bracket computation on the table rows
for that year.  The embedding below is that per-year loop body, on a
year's rows already sorted ascending by `amount` with duplicates
dropped, as `_get_tax_size` produces them.  The `assert amount >= 0`
of the source restricts the domain to non-negative amounts; the
theorems below carry that restriction as a hypothesis. -/

/-- One row of a bracket table for a single year: the bracket upper
bound (`amount`) and marginal rate in percent (`tax_percent`). -/
structure TaxRow where
  amount : ℚ
  tax_percent : ℚ
deriving Repr, DecidableEq

/-- `_get_tax_size`, first component: rates as decimals,
`tax_percent / 100`. -/
def get_tax (rows : List TaxRow) : List ℚ :=
  rows.map fun r => r.tax_percent / 100

/-- `_get_tax_size`, second component: per-bracket widths,
`amount - amount.shift().fillna(0)`. -/
def get_size (rows : List TaxRow) : List ℚ :=
  (rows.map fun r => r.amount).zipWith (· - ·) (0 :: rows.map fun r => r.amount)

/-- Running cumulative sums, `np.cumsum`. -/
def cumsum (l : List ℚ) : List ℚ :=
  (l.scanl (· + ·) 0).tail

/-- `np.digitize(x, _pad_bins(arr))`.  `_pad_bins` prepends a `0` and
replaces the final entry with `inf`; for monotone bins `np.digitize`
equals `searchsorted(..., side="right")`, i.e. the number of bin edges
`≤ x`, and the infinite final edge never counts. -/
def digitize (x : ℚ) (arr : List ℚ) : ℕ :=
  (0 :: arr.dropLast).countP fun b => decide (b ≤ x)

/-- Loop body of `tax_to_income` for one year: convert a tax (or
credit) amount into the income it covers.  Mirrors the source
line-by-line, including `previous_tax = tax_cum[:idx - 1].sum()`,
which sums entries of the already-cumulative array `tax_cum`. -/
def tax_to_income_amt (rows : List TaxRow) (amount : ℚ) : ℚ :=
  let tax := get_tax rows
  let size := get_size rows
  let tax_cum := cumsum (tax.zipWith (· * ·) size)
  let idx := digitize amount tax_cum
  let previous_tax := (tax_cum.take (idx - 1)).sum
  let previous_bracket := (size.take (idx - 1)).sum
  let current_tax := amount - previous_tax
  let current_bracket := current_tax / tax.getD (idx - 1) 0
  previous_bracket + current_bracket

/-- Loop body of `income_to_tax` for one year: total tax owed on a
taxable income.  Mirrors the source line-by-line, including
`previous_tax = tax_cum[:idx - 1].sum()` over the cumulative array. -/
def income_to_tax_amt (rows : List TaxRow) (amount : ℚ) : ℚ :=
  let tax := get_tax rows
  let size := get_size rows
  let size_cum := cumsum size
  let tax_cum := cumsum (tax.zipWith (· * ·) size)
  let idx := digitize amount size_cum
  let previous_tax := (tax_cum.take (idx - 1)).sum
  let previous_bracket := (size.take (idx - 1)).sum
  let current_bracket := amount - previous_bracket
  let current_tax := current_bracket * tax.getD (idx - 1) 0
  previous_tax + current_tax

/-! ## `TaxEvasionStrategy.start_fire`

`start_fire` iterates the year horizon with a boolean `retired` flag:
a non-retired year runs `_do_working_year`, whose boolean result
becomes the new flag; a retired year runs `_do_retired_year`.  The two
per-year procedures mutate the whole strategy state (accounts, income
tables); they are abstracted here as functions over an arbitrary state
type `σ`, which is exactly what the loop in lines 614-623 of `core.py`
sees of them. -/

/-- The loop of `TaxEvasionStrategy.start_fire`, starting from a given
`retired` flag.  Returns the final state and final flag. -/
def fire_loop {σ : Type} (do_work : ℤ → σ → σ × Bool) (do_retired : ℤ → σ → σ) :
    List ℤ → σ → Bool → σ × Bool
  | [], s, retired => (s, retired)
  | y :: ys, s, retired =>
    if retired then
      fire_loop do_work do_retired ys (do_retired y s) retired
    else
      let (s1, r) := do_work y s
      fire_loop do_work do_retired ys s1 r

/-- `TaxEvasionStrategy.start_fire`: the loop over the whole horizon,
beginning with `retired = False`. -/
def start_fire {σ : Type} (do_work : ℤ → σ → σ × Bool) (do_retired : ℤ → σ → σ)
    (years : List ℤ) (s : σ) : σ × Bool :=
  fire_loop do_work do_retired years s false

/-- Observation of the same loop: which procedure ran in each year
(`false` = `_do_working_year`, `true` = `_do_retired_year`). -/
def fire_modes {σ : Type} (do_work : ℤ → σ → σ × Bool) (do_retired : ℤ → σ → σ) :
    List ℤ → σ → Bool → List Bool
  | [], _, _ => []
  | y :: ys, s, retired =>
    if retired then
      true :: fire_modes do_work do_retired ys (do_retired y s) retired
    else
      let (s1, r) := do_work y s
      false :: fire_modes do_work do_retired ys s1 r

/-- The number of years the working-year procedure executes in a run
starting from `retired = false`. -/
def working_count {σ : Type} (do_work : ℤ → σ → σ × Bool) (do_retired : ℤ → σ → σ) :
    List ℤ → σ → Bool → ℕ
  | [], _, _ => 0
  | y :: ys, s, retired =>
    if retired then 0
    else
      let (s1, r) := do_work y s
      1 + working_count do_work do_retired ys s1 r

/-- Observation of the same loop: the value of the `retired` flag
after each year of the run. -/
def fire_flags {σ : Type} (do_work : ℤ → σ → σ × Bool) (do_retired : ℤ → σ → σ) :
    List ℤ → σ → Bool → List Bool
  | [], _, _ => []
  | y :: ys, s, retired =>
    if retired then
      true :: fire_flags do_work do_retired ys (do_retired y s) retired
    else
      let (s1, r) := do_work y s
      r :: fire_flags do_work do_retired ys s1 r

/-! ## Concrete inputs used by the evaluation and counterexample theorems -/

/-- A fresh two-year default `Investment` (growth 4.5) that received a
single employer contribution of 2000: its first open year then has
`start_balance = 0`, `contribution = 2000`, `basis = 0`. -/
def gains_bug_account : Account :=
  (contribute (mk_investment 2 0 0 (9 / 2) false false false false none) 2000 false).1

/-- A fresh two-year `Investment` with `contribution_limit = 18000`
replaced by 1000 (as the tests assign a limit directly). -/
def limit_account : Account :=
  mk_investment 2 0 0 (9 / 2) false false false false (some 1000)

/-- `limit_account` after an employee contribution of 800. -/
def limit_account_1 : Account := (contribute limit_account 800 true).1

/-- `limit_account_1` after a basis-strategy withdrawal of 500. -/
def limit_account_2 : Account := (withdraw limit_account_1 500 .basis).1

/-- A four-bracket table: 10% to 100, 20% to 200, 30% to 300, 40% above.
Amounts strictly increasing, rates non-decreasing: well-formed in the
sense of the data model. -/
def table4 : List TaxRow := [⟨100, 10⟩, ⟨200, 20⟩, ⟨300, 30⟩, ⟨400, 40⟩]

/-- A table whose lowest bracket has a 0% rate: 0% to 100, 10% above. -/
def zero_rate_table : List TaxRow := [⟨100, 0⟩, ⟨200, 10⟩]

/-!  ## Claims -/

/-- Claim C1, evaluated at a failing input.  The first open year of
`gains_bug_account` has `start_balance = 0`, `contribution = 2000`,
`basis = 0`, so the unrealized gains of the claim are
`0 + 2000 - 0 = 2000 ≥ 1000`; the claim then promises tax owed of
exactly 1000 and an unchanged basis.  The code instead returns tax 0
and drives the basis to -1000, because line 400 of `core.py` loads the
`basis` column into the local variable named `contribution`, making the
computed gains `(start_balance + basis) - basis = start_balance = 0`. -/
theorem C1_gains_strategy_typo_eval :
    gains_bug_account.rows[0]? =
      some { basis := some 0, start_balance := some 0, end_balance := none,
             contribution := some 2000, gains := none } ∧
    (withdraw gains_bug_account 1000 .gains).2 =
      .ok { amount := 1000, tax := some 0, tax_type := .income } ∧
    ((withdraw gains_bug_account 1000 .gains).1.rows[0]?).map Row.basis =
      some (some (-1000)) := by
  norm_num [gains_bug_account, mk_investment, contribute, withdraw, current_idx,
    calc_new_basis, nadd, nsub, nmul, nlt, ngt, List.findIdx?]

/-- Claim C2, evaluated at a failing input.  The sequence
`contribute(2000, employee=False)` then `withdraw(1000, "gains")` on a
fresh account raises nothing, yet leaves `basis = -1000 < 0`,
violating the invariant `basis ≥ 0`; the cause is the same
basis-for-contribution column mix-up on line 400 of `core.py`. -/
theorem C2_basis_negative_eval :
    (contribute (mk_investment 2 0 0 (9 / 2) false false false false none) 2000 false).2 =
      .ok () ∧
    (withdraw gains_bug_account 1000 .gains).2 =
      .ok { amount := 1000, tax := some 0, tax_type := .income } ∧
    ((withdraw gains_bug_account 1000 .gains).1.rows[0]?).map Row.basis =
      some (some (-1000)) ∧
    (-1000 : ℚ) < 0 := by
  norm_num [gains_bug_account, mk_investment, contribute, withdraw, current_idx,
    calc_new_basis, nadd, nsub, nmul, nlt, ngt, List.findIdx?]

/-- Claim C4, evaluated at a failing input.  On the well-formed
four-bracket table `table4` (max cumulative tax 100) both round trips
fail: `tax_to_income(33) = 530/3` but feeding that back through
`income_to_tax` yields `76/3 ≠ 33`, and `income_to_tax(280) = 64`
(the true progressive tax is 54) whose inverse image is `210 ≠ 280`.
The cause is `previous_tax = tax_cum[:idx - 1].sum()` in both
functions, which sums entries of the already-cumulative array, so every
bracket beyond the second gets a wrong lower-bracket tax total. -/
theorem C4_roundtrip_failure_eval :
    (cumsum ((get_tax table4).zipWith (· * ·) (get_size table4))).getLastD 0 = 100 ∧
    (0 : ℚ) ≤ 33 ∧ (33 : ℚ) ≤ 100 ∧
    tax_to_income_amt table4 33 = 530 / 3 ∧
    income_to_tax_amt table4 (tax_to_income_amt table4 33) = 76 / 3 ∧
    (76 / 3 : ℚ) ≠ 33 ∧
    income_to_tax_amt table4 280 = 64 ∧
    tax_to_income_amt table4 (income_to_tax_amt table4 280) = 210 ∧
    (210 : ℚ) ≠ 280 := by
  norm_num [tax_to_income_amt, income_to_tax_amt, table4, get_tax, get_size,
    cumsum, digitize]

/-- Counterexample to claim C5.  On `limit_account`
(`contribution_limit = 1000`) the sequence employee-contribute 800,
withdraw 500, employee-contribute 600 raises nothing, although the
post-contribution cumulative employee total of the final call is
`800 + 600 = 1400 > 1000`: the source checks the requested amount
against the current `contribution` column (all sources, net of
withdrawals), not against a cumulative employee total. -/
theorem C5_limit_check_counterexample :
    limit_account.contribution_limit = some 1000 ∧
    (contribute limit_account 800 true).2 = .ok () ∧
    (withdraw limit_account_1 500 .basis).2 =
      .ok { amount := 500, tax := some 0, tax_type := .income } ∧
    (800 : ℚ) + 600 > 1000 ∧
    (contribute limit_account_2 600 true).2 = .ok () ∧
    ((contribute limit_account_2 600 true).1.rows[0]?).map Row.contribution =
      some (some 900) := by
  norm_num [limit_account, limit_account_1, limit_account_2, mk_investment,
    contribute, withdraw, current_idx, calc_new_basis, nadd, nsub, nmul, nlt, ngt,
    List.findIdx?]

/-- Counterexample to claim C7.  On `zero_rate_table` (a well-formed
table: amounts strictly increasing, rates non-decreasing) whose lowest
bracket has a 0% rate, `tax_to_income(0)` is 100 — the full width of
the 0% bracket — not 0, because `np.digitize` lands to the right of
the duplicated zero entries of the padded cumulative-tax bins. -/
theorem C7_zero_amount_counterexample :
    List.Chain' (· < ·) (zero_rate_table.map TaxRow.amount) ∧
    List.Chain' (· ≤ ·) (zero_rate_table.map TaxRow.tax_percent) ∧
    tax_to_income_amt zero_rate_table 0 = 100 ∧ (100 : ℚ) ≠ 0 := by
  norm_num [tax_to_income_amt, zero_rate_table, get_tax, get_size, cumsum, digitize]

/-- Counterexample to claim C10.  The available funds of
`gains_bug_account` are `contribution + start_balance = 2000`, yet
withdrawing exactly 2000 with the (default) `balanced` strategy does
not succeed: `_calc_new_basis` raises `NotImplementedError` for
`balanced` regardless of the amount. -/
theorem C10_full_funds_balanced_counterexample :
    (gains_bug_account.rows[0]?).map (fun r => nadd r.contribution r.start_balance) =
      some (some 2000) ∧
    (withdraw gains_bug_account 2000 .balanced).2 = .error .notImplemented := by
  norm_num [gains_bug_account, mk_investment, contribute, withdraw, current_idx,
    calc_new_basis, nadd, nsub, nmul, nlt, ngt, List.findIdx?]

/-- Claim C3: `close_year` fails with the balance-undetermined
`BalanceError` exactly when the start balance of the addressed year is
unset; otherwise it sets `gains = growth_rate * start_balance +
growth_rate / 2 * contribution` and `end_balance = start_balance +
gains + contribution`, and when a next year exists in the horizon it
propagates the end balance into the next start balance and the current
basis into the next basis. -/
theorem C3_close_year_spec (a : Account) (i : ℕ) (row : Row)
    (hrow : a.rows[i]? = some row) :
    (row.start_balance = none → close_year_at a i = (a, .error .balanceUndetermined)) ∧
    (∀ s c, row.start_balance = some s → row.contribution = some c →
      (close_year_at a i).2 = .ok () ∧
      (∃ row1, (close_year_at a i).1.rows[i]? = some row1 ∧
        row1.gains = some (a.growth_rate * s + a.growth_rate / 2 * c) ∧
        row1.end_balance = some (s + (a.growth_rate * s + a.growth_rate / 2 * c) + c)) ∧
      (∀ nrow, a.rows[i + 1]? = some nrow →
        ∃ nrow1, (close_year_at a i).1.rows[i + 1]? = some nrow1 ∧
          nrow1.start_balance =
            some (s + (a.growth_rate * s + a.growth_rate / 2 * c) + c) ∧
          nrow1.basis = row.basis)) := by
  have hlen : i < a.rows.length := (List.getElem?_eq_some.mp hrow).1
  refine ⟨fun h0 => by simp [close_year_at, hrow, h0], fun s c hs hc => ?_⟩
  have harith : c * a.growth_rate / 2 + s * a.growth_rate
      = a.growth_rate * s + a.growth_rate / 2 * c := by ring
  have hset1 : ∀ r1 : Row, (a.rows.set i r1)[i + 1]? = a.rows[i + 1]? :=
    fun r1 => List.getElem?_set_ne (by omega)
  cases hnext : a.rows[i + 1]? with
  | none =>
    refine ⟨by simp [close_year_at, hrow, hs, hc, nmul, nadd, hset1, hnext], ?_, ?_⟩
    · refine ⟨{ row with
          end_balance := some (s + (c * a.growth_rate / 2 + s * a.growth_rate) + c),
          gains := some (c * a.growth_rate / 2 + s * a.growth_rate) }, ?_, ?_, ?_⟩
      · simp [close_year_at, hrow, hs, hc, nmul, nadd, hset1, hnext,
          List.getElem?_set_self hlen]
      · simp [harith]
      · simp [harith]
    · intro nrow hn; simp at hn
  | some nrow0 =>
    have hlen1 : i + 1 < a.rows.length := (List.getElem?_eq_some.mp hnext).1
    refine ⟨by simp [close_year_at, hrow, hs, hc, nmul, nadd, hset1, hnext], ?_, ?_⟩
    · refine ⟨{ row with
          end_balance := some (s + (c * a.growth_rate / 2 + s * a.growth_rate) + c),
          gains := some (c * a.growth_rate / 2 + s * a.growth_rate) }, ?_, ?_, ?_⟩
      · simp [close_year_at, hrow, hs, hc, nmul, nadd, hset1, hnext,
          List.getElem?_set_ne (show i + 1 ≠ i by omega),
          List.getElem?_set_self hlen]
      · simp [harith]
      · simp [harith]
    · intro nrow hn
      injection hn with hn
      subst hn
      refine ⟨{ nrow0 with
          start_balance := some (s + (c * a.growth_rate / 2 + s * a.growth_rate) + c),
          basis := row.basis }, ?_, ?_, ?_⟩
      · simp [close_year_at, hrow, hs, hc, nmul, nadd, hset1, hnext,
          List.getElem?_set_self (show i + 1 < (a.rows.set i _).length by simpa using hlen1)]
      · simp [harith]
      · simp
/-- Witness for the C3 theorem on a concrete two-year account. -/
theorem C3_close_year_spec_witness :
    (close_year_at (mk_investment 2 100 5 (9 / 2) false false false false none) 0).2 =
      .ok () :=
  ((C3_close_year_spec (mk_investment 2 100 5 (9 / 2) false false false false none) 0
    { basis := some 5, start_balance := some 100, end_balance := none,
      contribution := some 0, gains := none } rfl).2 100 0 rfl rfl).1


/-- Helper: `_calc_new_basis` only ever raises for the `balanced`
strategy, and then it raises `NotImplementedError`. -/
theorem calc_new_basis_error (amount : ℚ) (strategy : Strategy) (row : Row) (e : Err)
    (h : calc_new_basis amount strategy row = .error e) :
    strategy = .balanced ∧ e = .notImplemented := by
  cases strategy with
  | balanced =>
    refine ⟨rfl, ?_⟩
    have h2 := h
    simp [calc_new_basis] at h2
    exact h2.symm
  | basis =>
    exfalso
    by_cases hlt : nlt (nsub row.basis (some amount)) (some 0) = true <;>
      simp [calc_new_basis, hlt] at h
  | gains =>
    exfalso
    by_cases hgt : ngt (nsub (nadd row.start_balance row.basis) row.basis) (some amount) = true <;>
      simp [calc_new_basis, hgt] at h

/-- Helper: for the implemented strategies `_calc_new_basis` returns. -/
theorem calc_new_basis_ok (amount : ℚ) (strategy : Strategy) (row : Row)
    (h : strategy ≠ .balanced) : ∃ p, calc_new_basis amount strategy row = .ok p := by
  cases hres : calc_new_basis amount strategy row with
  | ok p => exact ⟨p, rfl⟩
  | error e => exact absurd (calc_new_basis_error amount strategy row e hres).1 h

/-- Claim C6: for every strategy, `withdraw` fails with the
insufficient-balance `BalanceError` exactly when the requested amount
exceeds `contribution + start_balance` of the current year; every
failure leaves the account unchanged (all raises in the source precede
all mutations), and every success reduces the contribution of the
year by the amount. -/
theorem C6_withdraw_contract (a : Account) (amount : ℚ) (strategy : Strategy)
    (i : ℕ) (row : Row) (c b : ℚ)
    (hi : current_idx a = some i) (hrow : a.rows[i]? = some row)
    (hc : row.contribution = some c) (hb : row.start_balance = some b) :
    ((withdraw a amount strategy).2 = .error .insufficientBalance ↔ c + b < amount) ∧
    (∀ e, (withdraw a amount strategy).2 = .error e → (withdraw a amount strategy).1 = a) ∧
    (∀ w, (withdraw a amount strategy).2 = .ok w →
      ∃ row1, (withdraw a amount strategy).1.rows[i]? = some row1 ∧
        row1.contribution = some (c - amount)) := by
  have hlen : i < a.rows.length := (List.getElem?_eq_some.mp hrow).1
  by_cases hlt : c + b - amount < 0
  · have hred : withdraw a amount strategy = (a, .error .insufficientBalance) := by
      simp [withdraw, hi, hrow, hc, hb, nadd, nsub, nlt, hlt]
    rw [hred]
    refine ⟨by simpa using by linarith, fun e _ => rfl, fun w hw => by simp at hw⟩
  · have hge : ¬ c + b < amount := by intro h; exact hlt (by linarith)
    cases strategy with
    | balanced =>
      have hred : withdraw a amount .balanced = (a, .error .notImplemented) := by
        simp [withdraw, hi, hrow, hc, hb, nadd, nsub, nlt, hlt, calc_new_basis]
      rw [hred]
      exact ⟨by simp [hge], fun e _ => rfl, fun w hw => by simp at hw⟩
    | basis =>
      obtain ⟨⟨nb, tx⟩, hp⟩ := calc_new_basis_ok amount .basis row (by simp)
      have hred : withdraw a amount .basis =
          ({ a with rows := (a.rows.set i
              { row with contribution := nsub row.contribution (some amount), basis := nb }) },
            .ok ⟨amount, if a.taxfree then some 0 else if a.pretax then some amount else tx,
              if a.captial_gains then .capital_gains else .income⟩) := by
        simp [withdraw, hi, hrow, hc, hb, nadd, nsub, nlt, hlt, hp]
      rw [hred]
      refine ⟨by simp [hge], fun e he => by simp at he, fun w hw => ?_⟩
      refine ⟨{ row with contribution := nsub row.contribution (some amount), basis := nb }, ?_, ?_⟩
      · simp [List.getElem?_set_self hlen]
      · simp [hc, nsub]
    | gains =>
      obtain ⟨⟨nb, tx⟩, hp⟩ := calc_new_basis_ok amount .gains row (by simp)
      have hred : withdraw a amount .gains =
          ({ a with rows := (a.rows.set i
              { row with contribution := nsub row.contribution (some amount), basis := nb }) },
            .ok ⟨amount, if a.taxfree then some 0 else if a.pretax then some amount else tx,
              if a.captial_gains then .capital_gains else .income⟩) := by
        simp [withdraw, hi, hrow, hc, hb, nadd, nsub, nlt, hlt, hp]
      rw [hred]
      refine ⟨by simp [hge], fun e he => by simp at he, fun w hw => ?_⟩
      refine ⟨{ row with contribution := nsub row.contribution (some amount), basis := nb }, ?_, ?_⟩
      · simp [List.getElem?_set_self hlen]
      · simp [hc, nsub]

/-- Witness for the C6 theorem on a concrete account. -/
theorem C6_withdraw_contract_witness :
    ((withdraw gains_bug_account 500 .basis).2 = .error .insufficientBalance ↔
      (2000 : ℚ) + 0 < 500) :=
  (C6_withdraw_contract gains_bug_account 500 .basis 0
    { basis := some 0, start_balance := some 0, end_balance := none,
      contribution := some 2000, gains := none } 2000 0
    (by norm_num [gains_bug_account, mk_investment, contribute, current_idx,
      nadd, ngt, List.findIdx?])
    (by norm_num [gains_bug_account, mk_investment, contribute, current_idx,
      nadd, ngt, List.findIdx?])
    rfl rfl).1

/-- Claim C5 as amended: an employee contribution fails with
`ContributionLimitsExceeded` exactly when the current contribution
cell of the year (all sources, net of withdrawals) plus the amount
compares greater than the contribution limit under NaN-false
comparison; failures leave the account unchanged; a successful
employee contribution adds the amount to both contribution and basis;
an employer contribution always succeeds, adds the amount to the
contribution, and leaves basis unchanged. -/
theorem C5_contribute_amended (a : Account) (amount : ℚ) (i : ℕ) (row : Row) (c : ℚ)
    (hi : current_idx a = some i) (hrow : a.rows[i]? = some row)
    (hc : row.contribution = some c) :
    ((contribute a amount true).2 = .error .contributionLimitsExceeded ↔
      ngt (some (c + amount)) a.contribution_limit = true) ∧
    ((contribute a amount true).2 = .error .contributionLimitsExceeded →
      (contribute a amount true).1 = a) ∧
    ((contribute a amount true).2 = .ok () →
      ∃ row1, (contribute a amount true).1.rows[i]? = some row1 ∧
        row1.contribution = some (c + amount) ∧
        row1.basis = nadd row.basis (some amount)) ∧
    ((contribute a amount false).2 = .ok ()) ∧
    (∃ row1, (contribute a amount false).1.rows[i]? = some row1 ∧
      row1.contribution = some (c + amount) ∧ row1.basis = row.basis) := by
  have hlen : i < a.rows.length := (List.getElem?_eq_some.mp hrow).1
  have hemp : contribute a amount false =
      ({ a with rows := (a.rows.set i { row with contribution := some (c + amount) }) },
        .ok ()) := by
    simp [contribute, hi, hrow, hc, nadd]
  by_cases hgt : ngt (some (c + amount)) a.contribution_limit = true
  · have hred : contribute a amount true = (a, .error .contributionLimitsExceeded) := by
      simp [contribute, hi, hrow, hc, nadd, hgt]
    rw [hred, hemp]
    refine ⟨⟨fun _ => hgt, fun _ => rfl⟩, fun _ => rfl, fun hk => by simp at hk, rfl, ?_⟩
    refine ⟨{ row with contribution := some (c + amount) }, ?_, rfl, rfl⟩
    simp [List.getElem?_set_self hlen]
  · have hred : contribute a amount true =
        ({ a with rows := (a.rows.set i
            { row with contribution := some (c + amount), basis := nadd row.basis (some amount) }) },
          .ok ()) := by
      simp [contribute, hi, hrow, hc, nadd, hgt]
    rw [hred, hemp]
    refine ⟨⟨fun hk => by simp at hk, fun hk => absurd hk hgt⟩, fun hk => by simp at hk,
      fun _ => ?_, rfl, ?_⟩
    · refine ⟨{ row with contribution := some (c + amount), basis := nadd row.basis (some amount) },
        ?_, rfl, rfl⟩
      simp [List.getElem?_set_self hlen]
    · refine ⟨{ row with contribution := some (c + amount) }, ?_, rfl, rfl⟩
      simp [List.getElem?_set_self hlen]

/-- Claim C9: with the default `contribution_limit = NaN` (as in all
four account subtypes constructed by `TaxEvasionStrategy`), an
employee contribution never fails with `ContributionLimitsExceeded`,
because `new_contrib > NaN` is always false. -/
theorem C9_nan_limit_never_limit_error (a : Account) (amount : ℚ)
    (h : a.contribution_limit = none) :
    (contribute a amount true).2 ≠ .error .contributionLimitsExceeded := by
  cases hci : current_idx a with
  | none => simp [contribute, hci]
  | some i =>
    cases hrw : a.rows[i]? with
    | none => simp [contribute, hci, hrw]
    | some row => simp [contribute, hci, hrw, h, ngt]

/-- Witness for the C9 theorem on the four default-constructed
account subtypes. -/
theorem C9_nan_limit_witness :
    (mk_taxable 2).contribution_limit = none ∧
    (mk_traditional_401k 2).contribution_limit = none ∧
    (mk_traditional_ira 2).contribution_limit = none ∧
    (mk_roth_ira 2).contribution_limit = none ∧
    (contribute (mk_taxable 2) 1000000000 true).2 ≠ .error .contributionLimitsExceeded ∧
    (contribute (mk_traditional_401k 2) 1000000000 true).2 ≠
      .error .contributionLimitsExceeded ∧
    (contribute (mk_traditional_ira 2) 1000000000 true).2 ≠
      .error .contributionLimitsExceeded ∧
    (contribute (mk_roth_ira 2) 1000000000 true).2 ≠ .error .contributionLimitsExceeded :=
  ⟨rfl, rfl, rfl, rfl,
    C9_nan_limit_never_limit_error (mk_taxable 2) 1000000000 rfl,
    C9_nan_limit_never_limit_error (mk_traditional_401k 2) 1000000000 rfl,
    C9_nan_limit_never_limit_error (mk_traditional_ira 2) 1000000000 rfl,
    C9_nan_limit_never_limit_error (mk_roth_ira 2) 1000000000 rfl⟩

/-- Claim C10 as amended: whenever `withdraw` returns, the returned
amount equals the requested amount; withdrawing exactly the available
funds `contribution + start_balance` succeeds under the implemented
strategies (`basis`, `gains`), while with the (default) `balanced`
strategy every withdrawal whose amount is within the available funds
fails with `NotImplementedError` (an amount beyond the funds still
fails with the insufficient-balance check first, as claim C6 states). -/
theorem C10_withdraw_amount_amended (a : Account) (i : ℕ) (row : Row) (c b : ℚ)
    (hi : current_idx a = some i) (hrow : a.rows[i]? = some row)
    (hc : row.contribution = some c) (hb : row.start_balance = some b) :
    (∀ amount strategy w, (withdraw a amount strategy).2 = .ok w → w.amount = amount) ∧
    (∀ strategy, strategy ≠ Strategy.balanced →
      ∃ w, (withdraw a (c + b) strategy).2 = .ok w ∧ w.amount = c + b) ∧
    (∀ amount, amount ≤ c + b →
      (withdraw a amount .balanced).2 = .error .notImplemented) := by
  have hlen : i < a.rows.length := (List.getElem?_eq_some.mp hrow).1
  have hfull : ¬ c + b - (c + b) < 0 := by norm_num
  refine ⟨?_, ?_, ?_⟩
  · intro amount strategy w hw
    by_cases hlt : c + b - amount < 0
    · have hred : (withdraw a amount strategy).2 = .error .insufficientBalance := by
        simp [withdraw, hi, hrow, hc, hb, nadd, nsub, nlt, hlt]
      rw [hred] at hw; cases hw
    · cases hres : calc_new_basis amount strategy row with
      | error e =>
        have hred : (withdraw a amount strategy).2 = .error e := by
          simp [withdraw, hi, hrow, hc, hb, nadd, nsub, nlt, hlt, hres]
        rw [hred] at hw; cases hw
      | ok p =>
        obtain ⟨nb, tx⟩ := p
        have hred : (withdraw a amount strategy).2 =
            .ok ⟨amount, if a.taxfree then some 0 else if a.pretax then some amount else tx,
              if a.captial_gains then .capital_gains else .income⟩ := by
          simp [withdraw, hi, hrow, hc, hb, nadd, nsub, nlt, hlt, hres]
        rw [hred] at hw
        injection hw with hw
        rw [← hw]
  · intro strategy hs
    obtain ⟨⟨nb, tx⟩, hp⟩ := calc_new_basis_ok (c + b) strategy row hs
    refine ⟨⟨c + b, if a.taxfree then some 0 else if a.pretax then some (c + b) else tx,
      if a.captial_gains then .capital_gains else .income⟩, ?_, rfl⟩
    simp [withdraw, hi, hrow, hc, hb, nadd, nsub, nlt, hfull, hp]
  · intro amount ham
    have hlt : ¬ c + b - amount < 0 := by linarith
    simp [withdraw, hi, hrow, hc, hb, nadd, nsub, nlt, hlt, calc_new_basis]

/-- Witness for the amended C5 theorem on a concrete account with
limit 1000. -/
theorem C5_contribute_amended_witness :
    ((contribute limit_account 5000 true).2 = .error .contributionLimitsExceeded ↔
      ngt (some ((0 : ℚ) + 5000)) limit_account.contribution_limit = true) :=
  (C5_contribute_amended limit_account 5000 0
    { basis := some 0, start_balance := some 0, end_balance := none,
      contribution := some 0, gains := none } 0 rfl rfl rfl).1

/-- Witness for the amended C10 theorem on a concrete fresh account. -/
theorem C10_withdraw_amount_amended_witness :
    (withdraw limit_account 0 .balanced).2 = .error .notImplemented :=
  (C10_withdraw_amount_amended limit_account 0
    { basis := some 0, start_balance := some 0, end_balance := none,
      contribution := some 0, gains := none } 0 0 rfl rfl rfl rfl).2.2 0 (by norm_num)

/-- Helper: every entry of a running sum starting at `acc` over
non-negative summands is at least `acc`. -/
theorem scanl_add_lb (l : List ℚ) (acc : ℚ) (h : ∀ x ∈ l, 0 ≤ x) :
    ∀ q ∈ List.scanl (· + ·) acc l, acc ≤ q := by
  induction l generalizing acc with
  | nil =>
    intro q hq
    simp at hq
    simp [hq]
  | cons x t ih =>
    intro q hq
    simp [List.scanl] at hq
    rcases hq with rfl | hq
    · exact le_refl q
    · have hx : 0 ≤ x := h x (by simp)
      have := ih (acc + x) (fun y hy => h y (by simp [hy])) q hq
      linarith

/-- Helper: every entry of `cumsum (x :: t)` with `t` non-negative is
at least `x`. -/
theorem cumsum_cons_lb (x : ℚ) (t : List ℚ) (h : ∀ y ∈ t, 0 ≤ y) :
    ∀ q ∈ cumsum (x :: t), x ≤ q := by
  intro q hq
  have hrw : cumsum (x :: t) = List.scanl (· + ·) (0 + x) t := by
    simp [cumsum, List.scanl]
  rw [hrw] at hq
  have := scanl_add_lb t (0 + x) h q hq
  linarith

/-- Helper: elementwise products of non-negative lists are
non-negative. -/
theorem zipWith_mul_nonneg (l1 l2 : List ℚ) (h1 : ∀ x ∈ l1, 0 ≤ x) (h2 : ∀ x ∈ l2, 0 ≤ x) :
    ∀ q ∈ l1.zipWith (· * ·) l2, 0 ≤ q := by
  induction l1 generalizing l2 with
  | nil => simp
  | cons x t ih =>
    cases l2 with
    | nil => simp
    | cons y u =>
      intro q hq
      simp [List.zipWith] at hq
      rcases hq with rfl | hq
      · exact mul_nonneg (h1 x (by simp)) (h2 y (by simp))
      · exact ih u (fun z hz => h1 z (by simp [hz])) (fun z hz => h2 z (by simp [hz])) q hq

/-- Helper: when every finite padded bin beyond the leading zero is
positive, an amount of zero lands in the first bin. -/
theorem digitize_zero (arr : List ℚ) (h : ∀ q ∈ arr.dropLast, 0 < q) :
    digitize 0 arr = 1 := by
  unfold digitize
  rw [List.countP_cons]
  have h0 : (List.countP (fun b => decide (b ≤ (0 : ℚ))) arr.dropLast) = 0 := by
    apply List.countP_eq_zero.mpr
    intro q hq
    simpa using h q hq
  simp [h0]

/-- Claim C7 as amended: `income_to_tax` maps a zero amount to zero
for every table with positive bracket widths, including tables whose
lowest bracket has a 0% rate; `tax_to_income` maps a zero amount to
zero whenever the rates are non-negative and the lowest bracket rate
is positive.  For a 0%-rate lowest bracket `tax_to_income(0)` is not
zero (the counterexample shows it returns the zero-rate bracket width
on a concrete table — behaviour `Household._get_tax_free_gains`
depends on). -/
theorem C7_zero_amount_amended (rows : List TaxRow)
    (hsize : ∀ q ∈ get_size rows, 0 < q) :
    income_to_tax_amt rows 0 = 0 ∧
    ((∀ q ∈ get_tax rows, 0 ≤ q) → 0 < (get_tax rows).headD 0 →
      tax_to_income_amt rows 0 = 0) := by
  cases rows with
  | nil =>
    constructor
    · norm_num [income_to_tax_amt, get_tax, get_size, cumsum, digitize, List.scanl]
    · intro _ hfirst
      simp [get_tax] at hfirst
  | cons r rest =>
    have hsz : get_size (r :: rest) =
        (r.amount - 0) :: (rest.map TaxRow.amount).zipWith (· - ·)
          (r.amount :: rest.map TaxRow.amount) := by
      simp [get_size]
    have htx : get_tax (r :: rest) = (r.tax_percent / 100) :: get_tax rest := by
      simp [get_tax]
    constructor
    · -- income_to_tax 0 = 0
      have hd : digitize 0 (cumsum (get_size (r :: rest))) = 1 := by
        apply digitize_zero
        intro q hq
        have hq2 : q ∈ cumsum (get_size (r :: rest)) :=
          (List.dropLast_sublist _).mem hq
        rw [hsz] at hq2
        have hlb := cumsum_cons_lb (r.amount - 0)
          ((rest.map TaxRow.amount).zipWith (· - ·) (r.amount :: rest.map TaxRow.amount))
          (fun y hy => le_of_lt (hsize y (by rw [hsz]; simp [hy]))) q hq2
        have hfirstsz : (0 : ℚ) < r.amount - 0 := hsize _ (by rw [hsz]; simp)
        linarith
      simp only [income_to_tax_amt]
      rw [hd]
      simp
    · -- tax_to_income 0 = 0 under non-negative rates with a positive lowest rate
      intro hrates hfirst
      have hd : digitize 0 (cumsum ((get_tax (r :: rest)).zipWith (· * ·)
          (get_size (r :: rest)))) = 1 := by
        apply digitize_zero
        intro q hq
        have hq2 := (List.dropLast_sublist _).mem hq
        rw [htx, hsz] at hq2
        have hzip : (((r.tax_percent / 100) :: get_tax rest).zipWith (· * ·)
            ((r.amount - 0) :: (rest.map TaxRow.amount).zipWith (· - ·)
              (r.amount :: rest.map TaxRow.amount))) =
            (r.tax_percent / 100 * (r.amount - 0)) ::
              ((get_tax rest).zipWith (· * ·)
                ((rest.map TaxRow.amount).zipWith (· - ·) (r.amount :: rest.map TaxRow.amount))) := by
          simp [List.zipWith]
        rw [hzip] at hq2
        have hfirstpos : (0 : ℚ) < r.tax_percent / 100 * (r.amount - 0) := by
          have h1 : (0 : ℚ) < r.tax_percent / 100 := by
            rw [htx] at hfirst
            simpa using hfirst
          have h2 : (0 : ℚ) < r.amount - 0 := hsize _ (by rw [hsz]; simp)
          exact mul_pos h1 h2
        have hrest : ∀ y ∈ ((get_tax rest).zipWith (· * ·)
            ((rest.map TaxRow.amount).zipWith (· - ·) (r.amount :: rest.map TaxRow.amount))), 0 ≤ y := by
          apply zipWith_mul_nonneg
          · intro x hx
            exact hrates x (by rw [htx]; simp [hx])
          · intro x hx
            exact le_of_lt (hsize x (by rw [hsz]; simp [hx]))
        have hlb := cumsum_cons_lb _ _ hrest q hq2
        linarith
      simp only [tax_to_income_amt]
      rw [hd, htx]
      simp

/-- Witness for the amended C7 theorem: the income conclusion also on
the 0%-lowest-rate table of the counterexample, and both conclusions
on a two-bracket table with positive rates. -/
theorem C7_zero_amount_amended_witness :
    income_to_tax_amt zero_rate_table 0 = 0 ∧
    income_to_tax_amt [⟨100, 10⟩, ⟨200, 20⟩] 0 = 0 ∧
    tax_to_income_amt [⟨100, 10⟩, ⟨200, 20⟩] 0 = 0 :=
  ⟨(C7_zero_amount_amended zero_rate_table
      (by norm_num [get_size, zero_rate_table])).1,
    (C7_zero_amount_amended [⟨100, 10⟩, ⟨200, 20⟩] (by norm_num [get_size])).1,
    (C7_zero_amount_amended [⟨100, 10⟩, ⟨200, 20⟩] (by norm_num [get_size])).2
      (by norm_num [get_tax]) (by norm_num [get_tax])⟩

/-- Helper: once the retired flag is set, every remaining year runs
the retired-year procedure. -/
theorem fire_modes_retired {σ : Type} (dw : ℤ → σ → σ × Bool) (dr : ℤ → σ → σ) :
    ∀ (ys : List ℤ) (s : σ), fire_modes dw dr ys s true = List.replicate ys.length true
  | [], _ => rfl
  | y :: ys, s => by
    simp [fire_modes, fire_modes_retired dw dr ys (dr y s), List.replicate]

/-- Helper: once the retired flag is set it stays set to the end of
the run. -/
theorem fire_loop_retired {σ : Type} (dw : ℤ → σ → σ × Bool) (dr : ℤ → σ → σ) :
    ∀ (ys : List ℤ) (s : σ), (fire_loop dw dr ys s true).2 = true
  | [], _ => rfl
  | y :: ys, s => by
    simp [fire_loop, fire_loop_retired dw dr ys (dr y s)]

/-- Helper: after the transition the retired flag reads true for every
remaining year of the run. -/
theorem fire_flags_retired {σ : Type} (dw : ℤ → σ → σ × Bool) (dr : ℤ → σ → σ) :
    ∀ (ys : List ℤ) (s : σ), fire_flags dw dr ys s true = List.replicate ys.length true
  | [], _ => rfl
  | y :: ys, s => by
    simp [fire_flags, fire_flags_retired dw dr ys (dr y s), List.replicate]

/-- Claim C8: in every run of `start_fire` the mode sequence is some
number `k` of working years followed only by retired years — the
WORKING to RETIRED transition is one-way, and whenever a retired year
is reached the final flag is set.  Moreover the retired-flag trace
itself is `m` falses followed only by trues for some `m`, with the
final flag set exactly when `m` is below the horizon length: in a run
where the trigger fires the flag flips false-to-true exactly once and
never flips back, and in a run where it never fires the flag never
flips. -/
theorem C8_retirement_one_way {σ : Type} (dw : ℤ → σ → σ × Bool) (dr : ℤ → σ → σ)
    (years : List ℤ) (s : σ) :
    working_count dw dr years s false ≤ years.length ∧
    fire_modes dw dr years s false =
      List.replicate (working_count dw dr years s false) false ++
        List.replicate (years.length - working_count dw dr years s false) true ∧
    (working_count dw dr years s false < years.length →
      (start_fire dw dr years s).2 = true) ∧
    (∃ m, m ≤ years.length ∧
      fire_flags dw dr years s false =
        List.replicate m false ++ List.replicate (years.length - m) true ∧
      (start_fire dw dr years s).2 = decide (m < years.length)) := by
  induction years generalizing s with
  | nil =>
    refine ⟨by simp [working_count], by simp [working_count, fire_modes],
      by simp [working_count], 0, by simp, by simp [fire_flags], ?_⟩
    simp [start_fire, fire_loop]
  | cons y ys ih =>
    rcases hdw : dw y s with ⟨s1, r⟩
    have hwc : working_count dw dr (y :: ys) s false = 1 + working_count dw dr ys s1 r := by
      simp [working_count, hdw]
    have hmodes : fire_modes dw dr (y :: ys) s false = false :: fire_modes dw dr ys s1 r := by
      simp [fire_modes, hdw]
    have hflags : fire_flags dw dr (y :: ys) s false = r :: fire_flags dw dr ys s1 r := by
      simp [fire_flags, hdw]
    have hloop : (start_fire dw dr (y :: ys) s).2 = (fire_loop dw dr ys s1 r).2 := by
      simp [start_fire, fire_loop, hdw]
    cases r with
    | true =>
      have hwc0 : working_count dw dr ys s1 true = 0 := by
        cases ys <;> simp [working_count]
      rw [hwc, hwc0]
      refine ⟨by simp, ?_, fun _ => ?_, 0, by simp, ?_, ?_⟩
      · rw [hmodes, fire_modes_retired dw dr ys s1]
        simp [List.replicate]
      · rw [hloop]
        exact fire_loop_retired dw dr ys s1
      · rw [hflags, fire_flags_retired dw dr ys s1]
        simp [List.replicate]
      · rw [hloop, fire_loop_retired dw dr ys s1, List.length_cons]
        simp
    | false =>
      obtain ⟨ih1, ih2, ih3, m, hmle, hfl, hfinal⟩ := ih s1
      rw [hwc, hmodes]
      refine ⟨by rw [List.length_cons]; omega, ?_, fun hlt => ?_, m + 1, ?_, ?_, ?_⟩
      · rw [ih2]
        have h1 : 1 + working_count dw dr ys s1 false = working_count dw dr ys s1 false + 1 := by
          omega
        rw [h1, List.replicate_succ, List.length_cons]
        have h2 : ys.length + 1 - (working_count dw dr ys s1 false + 1)
            = ys.length - working_count dw dr ys s1 false := by omega
        rw [h2]
        simp
      · rw [hloop]
        rw [List.length_cons] at hlt
        exact ih3 (by omega)
      · rw [List.length_cons]
        omega
      · rw [hflags, hfl, List.replicate_succ, List.length_cons]
        have h2 : ys.length + 1 - (m + 1) = ys.length - m := by omega
        rw [h2]
        simp
      · rw [hloop, List.length_cons]
        have hfinal2 : (fire_loop dw dr ys s1 false).2 = decide (m < ys.length) := hfinal
        rw [hfinal2, decide_eq_decide]
        omega

/-- A small concrete working-year procedure for the C8 witness: it
increments a counter and reports the trigger when the counter is 1. -/
def witness_work : ℤ → ℕ → ℕ × Bool := fun _ s => (s + 1, decide (s = 1))

/-- A concrete retired-year procedure for the C8 witness. -/
def witness_retired : ℤ → ℕ → ℕ := fun _ s => s

/-- Witness for the C8 theorem on a concrete four-year run. -/
theorem C8_retirement_one_way_witness :
    working_count witness_work witness_retired [2020, 2021, 2022, 2023] 0 false ≤ 4 ∧
    fire_modes witness_work witness_retired [2020, 2021, 2022, 2023] 0 false =
      List.replicate
        (working_count witness_work witness_retired [2020, 2021, 2022, 2023] 0 false) false ++
      List.replicate
        (4 - working_count witness_work witness_retired [2020, 2021, 2022, 2023] 0 false)
        true ∧
    (working_count witness_work witness_retired [2020, 2021, 2022, 2023] 0 false < 4 →
      (start_fire witness_work witness_retired [2020, 2021, 2022, 2023] 0).2 = true) ∧
    (∃ m, m ≤ 4 ∧
      fire_flags witness_work witness_retired [2020, 2021, 2022, 2023] 0 false =
        List.replicate m false ++ List.replicate (4 - m) true ∧
      (start_fire witness_work witness_retired [2020, 2021, 2022, 2023] 0).2 =
        decide (m < 4)) := by
  have h := C8_retirement_one_way witness_work witness_retired [2020, 2021, 2022, 2023] 0
  simpa using h

end Simplefire
